import Mathlib

/-!
Shallow embedding of the Gmail auto-triage classifier found in
`src/accounts/work-uaa/scripts/gmail-triage/Code.js` (the `CONFIG` object,
the `EmailClassifier` class and its helpers), together with proofs about it.

Modelling conventions:
* JS numbers are modelled as exact rationals (`ℚ`); the constants of the
  classifier (0.3, 0.4, 0.5, 0.7, 0.8, 0.9, 1) are written `mkRat 3 10` etc.,
  so the arithmetic of the source is represented exactly.  Because the
  library field operations on `ℚ` are `@[irreducible]`, the embedding
  computes with kernel-reducible counterparts (`qadd`, `qmul`, `qdiv`,
  `qmin`, `qge`, `qgt`), each proved equal to the standard operation.
* JS strings are Lean `String`s; the character-level operations the source
  uses (`toLowerCase`, `includes`, `endsWith`, the `/<(.+?)>/` regex) are
  modelled over `List Char`.  `toLowerCase` is modelled on the ASCII range,
  which covers every configured sender, domain and rule keyword.
* JS objects used as dictionaries (`senderProfiles`, `keywordProfiles`,
  `scoreMap`) are association lists in insertion order, matching the
  insertion-order iteration of `Object.entries`.
* A JS `TypeError` (reading a property of `undefined`) is modelled with
  `Except String`; fields that the code may find absent on a malformed
  statistics bundle are `Option`s.
-/

/-- ASCII model of JS `toLowerCase` on one character: `'A'`-`'Z'` (codes
65-90) map 32 codes up; every other character is unchanged. -/
def lowerChar (c : Char) : Char :=
  if 65 ≤ c.toNat ∧ c.toNat ≤ 90 then Char.ofNat (c.toNat + 32) else c

/-- JS `String.prototype.toLowerCase` (ASCII model). -/
def strLower (s : String) : String :=
  String.mk (s.toList.map lowerChar)

/-- `needle` occurs at the very start of `hay`. -/
def subAt : List Char → List Char → Bool
  | _, [] => true
  | [], _ :: _ => false
  | a :: as, b :: bs => a == b && subAt as bs

/-- `needle` occurs somewhere in `hay`. -/
def subSearch : List Char → List Char → Bool
  | [], needle => needle.isEmpty
  | a :: t, needle => subAt (a :: t) needle || subSearch t needle

/-- JS `String.prototype.includes`. -/
def strIncludes (hay needle : String) : Bool :=
  subSearch hay.toList needle.toList

/-- JS `String.prototype.endsWith`. -/
def strEndsWith (s suffixStr : String) : Bool :=
  suffixStr.toList.isSuffixOf s.toList

/-- Lazy completion of the regex fragment `(.+?)>` after an opening `<`:
`acc` holds the group characters read so far (reversed, at least one); stop
at the first `>`, fail on a line terminator (`.` does not match it) or at
the end of input. -/
def grabGo (acc : List Char) : List Char → Option (List Char)
  | [] => none
  | c :: rest =>
    if c = '>' then some acc.reverse
    else if c = '\n' then none
    else grabGo (c :: acc) rest

/-- Attempt the regex fragment `(.+?)>` on the input following a `<`:
the group needs at least one (non-newline) character. -/
def grabGroup : List Char → Option (List Char)
  | [] => none
  | c :: rest => if c = '\n' then none else grabGo [c] rest

/-- The captured group of the leftmost match of the JS regex `/<(.+?)>/`:
scan for the first `<` whose following text admits a lazy completion; on
failure resume the scan right after that `<`. -/
def findAngle : List Char → Option (List Char)
  | [] => none
  | c :: rest =>
    if c = '<' then
      match grabGroup rest with
      | some g => some g
      | none => findAngle rest
    else findAngle rest

/-- `EmailClassifier._extractSenderEmail`: take the angle-bracketed address
if the `/<(.+?)>/` regex matches, else the whole string, lowercased. -/
def _extractSenderEmail (fromStr : String) : String :=
  match findAngle fromStr.toList with
  | some g => strLower (String.mk g)
  | none => strLower fromStr

/-- The slice of `CONFIG` the classifier reads: VIP and protected
sender/domain lists and the confidence thresholds. -/
structure TriageConfig where
  vipSenders : List String
  vipDomains : List String
  keepSenders : List String
  keepDomains : List String
  highConfidence : ℚ
  mediumConfidence : ℚ
  deriving Repr, DecidableEq

/-- `CONFIG` as built when no script property overrides are set:
the default values hard-coded in `Code.js`. -/
def defaultConfig : TriageConfig :=
  ⟨["provost@alaska.edu", "dean@alaska.edu"], ["alaska.edu", "ua.edu"],
   [], ["alaska.edu"], mkRat 8 10, mkRat 5 10⟩

/-- One entry of `intelligence.senderProfiles` (built by
`HistoricalIntelligence._processSenderSheet`). -/
structure SenderProfile where
  count : ℚ
  avgLabels : ℚ
  importance : String
  deriving Repr, DecidableEq

/-- One entry of `intelligence.keywordProfiles` (built by
`HistoricalIntelligence._processKeywordSheet`). -/
structure KeywordProfile where
  count : ℚ
  commonLabel : String
  weight : ℚ
  deriving Repr, DecidableEq

/-- The statistics bundle handed to `EmailClassifier`.  The two fields the
classifier reads are `Option`s so that a malformed bundle (a JS object
missing the field, i.e. the field reads as `undefined`) is representable. -/
structure Intelligence where
  senderProfiles : Option (List (String × SenderProfile))
  keywordProfiles : Option (List (String × KeywordProfile))
  deriving Repr, DecidableEq

/-- The `action` strings the triage code ever mentions (the classifier's
returns and the `switch` in `processInbox`). -/
inductive TriageAction
  | star
  | keep
  | label
  | archive
  deriving Repr, DecidableEq

/-- A classification decision as returned by `classifyThread`. -/
structure Decision where
  action : TriageAction
  label : Option String
  confidence : ℚ
  reason : String
  deriving Repr, DecidableEq

/-- `EmailClassifier._isVIP`. -/
def _isVIP (cfg : TriageConfig) (sender : String) : Bool :=
  if cfg.vipSenders.contains sender then true
  else cfg.vipDomains.any fun d => strEndsWith sender ("@" ++ d)

/-- `EmailClassifier._isProtected`. -/
def _isProtected (cfg : TriageConfig) (sender : String) : Bool :=
  if cfg.keepSenders.contains sender then true
  else cfg.keepDomains.any fun d => strEndsWith sender ("@" ++ d)

/-- The `text` variable both classifiers build:
`(subject + ' ' + snippet).toLowerCase()`. -/
def ruleText (subject snippet : String) : String :=
  strLower (subject ++ " " ++ snippet)

/-- `EmailClassifier._ruleBasedClassification`.  The early returns of the
source are compiled to nested conditionals; the newsletter check and the
default run whether or not the academic-domain gate was taken. -/
def _ruleBasedClassification (sender subject snippet : String) : Decision :=
  if strEndsWith sender "@alaska.edu" || strEndsWith sender "@ua.edu" then
    if strIncludes (ruleText subject snippet) "meeting"
        || strIncludes (ruleText subject snippet) "schedule" then
      ⟨.label, some "Meetings", mkRat 8 10, "Meeting related"⟩
    else if strIncludes (ruleText subject snippet) "student"
        || strIncludes (ruleText subject snippet) "grade" then
      ⟨.label, some "Students", mkRat 8 10, "Student related"⟩
    else if strIncludes (ruleText subject snippet) "department"
        || strIncludes (ruleText subject snippet) "faculty" then
      ⟨.label, some "Department", mkRat 7 10, "Department business"⟩
    else if strIncludes (ruleText subject snippet) "unsubscribe"
        || strIncludes (ruleText subject snippet) "newsletter" then
      ⟨.label, some "Newsletters", mkRat 9 10, "Newsletter detected"⟩
    else
      ⟨.keep, none, mkRat 3 10, "No specific rule matched"⟩
  else if strIncludes (ruleText subject snippet) "unsubscribe"
      || strIncludes (ruleText subject snippet) "newsletter" then
    ⟨.label, some "Newsletters", mkRat 9 10, "Newsletter detected"⟩
  else
    ⟨.keep, none, mkRat 3 10, "No specific rule matched"⟩

/-- Rational addition in a kernel-computable form (the library `+` on `ℚ` is
`@[irreducible]`); proved equal to `+` in `qadd_eq`. -/
def qadd (a b : ℚ) : ℚ :=
  mkRat (a.num * b.den + b.num * a.den) (a.den * b.den)

/-- Rational multiplication in a kernel-computable form; proved equal to `*`
in `qmul_eq`. -/
def qmul (a b : ℚ) : ℚ :=
  mkRat (a.num * b.num) (a.den * b.den)

/-- Rational division in a kernel-computable form; proved equal to `/` in
`qdiv_eq`. -/
def qdiv (a b : ℚ) : ℚ :=
  if b.num < 0 then mkRat (-(a.num * b.den)) (a.den * b.num.natAbs)
  else mkRat (a.num * b.den) (a.den * b.num.natAbs)

/-- `Math.min` on rationals in a kernel-computable form; proved equal to
`min` in `qmin_eq`. -/
def qmin (a b : ℚ) : ℚ :=
  if Rat.blt b a then b else a

/-- The JS comparison `a >= b` on rationals, kernel-computable. -/
def qge (a b : ℚ) : Bool :=
  !(Rat.blt a b)

/-- The JS comparison `a > b` on rationals, kernel-computable. -/
def qgt (a b : ℚ) : Bool :=
  Rat.blt b a

/-- `scoreMap[label] = (scoreMap[label] || 0) + x` on an insertion-ordered
association list: updating an existing key keeps its position, a new key is
appended. -/
def bumpScore (m : List (String × ℚ)) (label : String) (x : ℚ) :
    List (String × ℚ) :=
  match m with
  | [] => [(label, x)]
  | (k, v) :: rest =>
    if k = label then (k, qadd v x) :: rest else (k, v) :: bumpScore rest label x

/-- Sum of the scores held in a score map. -/
def sumVals (m : List (String × ℚ)) : ℚ :=
  (m.map Prod.snd).sum

/-- The sender-profile contribution: `0.4` to `"Important"` when the
sender's profile is present with `importance === 'high'` (the initial
`scoreMap` / `totalWeight` of `_classifyWithIntelligence`). -/
def scoreInit (sp : List (String × SenderProfile)) (sender : String) :
    List (String × ℚ) × ℚ :=
  match List.lookup sender sp with
  | some p => if p.importance = "high" then ([("Important", mkRat 4 10)], mkRat 4 10) else ([], 0)
  | none => ([], 0)

/-- One iteration of the keyword loop of `_classifyWithIntelligence`:
a keyword found in the text with a non-empty `commonLabel` contributes
`weight * 0.3` to that label and to `totalWeight`. -/
def scoreStep (text : String) (acc : List (String × ℚ) × ℚ)
    (kv : String × KeywordProfile) : List (String × ℚ) × ℚ :=
  if strIncludes text kv.1 then
    if kv.2.commonLabel = "" then acc
    else (bumpScore acc.1 kv.2.commonLabel (qmul kv.2.weight (mkRat 3 10)),
          qadd acc.2 (qmul kv.2.weight (mkRat 3 10)))
  else acc

/-- The full score accumulation of `_classifyWithIntelligence`: the
resulting `(scoreMap, totalWeight)`. -/
def scoreAccum (sp : List (String × SenderProfile))
    (kp : List (String × KeywordProfile)) (sender text : String) :
    List (String × ℚ) × ℚ :=
  kp.foldl (scoreStep text) (scoreInit sp sender)

/-- The best-label selection loop: start with `bestLabel = null`,
`bestScore = 0`, update on a strictly greater score. -/
def pickBest (m : List (String × ℚ)) : Option String × ℚ :=
  m.foldl (fun acc p => if qgt p.2 acc.2 then (some p.1, p.2) else acc) (none, 0)

/-- `EmailClassifier._classifyWithIntelligence`.  Reading
`intelligence.senderProfiles[sender]` on a bundle without `senderProfiles`
is a JS `TypeError` (modelled as `Except.error`); a missing
`keywordProfiles` is guarded in the source by `|| {}`. -/
def _classifyWithIntelligence (intel : Intelligence)
    (sender subject snippet : String) : Except String Decision :=
  match intel.senderProfiles with
  | none => Except.error "TypeError"
  | some sp =>
    match pickBest (scoreAccum sp (intel.keywordProfiles.getD []) sender
        (ruleText subject snippet)).1 with
    | (some l, best) =>
      if qgt (scoreAccum sp (intel.keywordProfiles.getD []) sender
          (ruleText subject snippet)).2 0 then
        Except.ok ⟨.label, some l,
          qmin (qdiv best (scoreAccum sp (intel.keywordProfiles.getD []) sender
            (ruleText subject snippet)).2) 1,
          "Historical pattern match"⟩
      else
        Except.ok ⟨.keep, none, 0, "No pattern match"⟩
    | (none, _) => Except.ok ⟨.keep, none, 0, "No pattern match"⟩

/-- The snippet taken from the thread's first message:
`getPlainBody().substring(0, 500)`. -/
def snippetOf (body : String) : String :=
  String.mk (body.toList.take 500)

/-- `EmailClassifier.classifyThread`, taking the thread's raw `From` header,
subject and plain body (the three thread reads of the source). -/
def classifyThread (cfg : TriageConfig) (intel : Option Intelligence)
    (fromStr subject body : String) : Except String Decision :=
  if _isVIP cfg (_extractSenderEmail fromStr) then
    Except.ok ⟨.star, some "VIP", 1, "VIP sender"⟩
  else if _isProtected cfg (_extractSenderEmail fromStr) then
    Except.ok ⟨.keep, none, 1, "Protected sender"⟩
  else
    match intel with
    | some i =>
      match _classifyWithIntelligence i (_extractSenderEmail fromStr) subject
          (snippetOf body) with
      | Except.error e => Except.error e
      | Except.ok d =>
        if qge d.confidence cfg.mediumConfidence then Except.ok d
        else Except.ok (_ruleBasedClassification (_extractSenderEmail fromStr) subject
          (snippetOf body))
    | none =>
      Except.ok (_ruleBasedClassification (_extractSenderEmail fromStr) subject
        (snippetOf body))

deriving instance DecidableEq for Except

theorem num_eq_mul_den (a : ℚ) : (a.num : ℚ) = a * a.den := by
  have ha : ((a.den : ℚ)) ≠ 0 := by positivity
  exact (div_eq_iff ha).mp (Rat.num_div_den a)

theorem qadd_eq (a b : ℚ) : qadd a b = a + b := by
  rw [qadd, Rat.mkRat_eq_div]
  push_cast
  rw [div_eq_iff (by positivity), num_eq_mul_den, num_eq_mul_den]
  ring

theorem qmul_eq (a b : ℚ) : qmul a b = a * b := by
  rw [qmul, Rat.mkRat_eq_div]
  push_cast
  rw [div_eq_iff (by positivity), num_eq_mul_den, num_eq_mul_den]
  ring

theorem qdiv_eq (a b : ℚ) : qdiv a b = a / b := by
  rcases lt_trichotomy b.num 0 with hb | hb | hb
  · have hbq : b ≠ 0 := by
      intro h; rw [h] at hb; simp at hb
    have hbc : ((b.num : ℚ)) < 0 := by exact_mod_cast hb
    rw [qdiv, if_pos hb, Rat.mkRat_eq_div]
    push_cast [Int.cast_natAbs]
    rw [abs_of_neg hbc]
    rw [div_eq_div_iff (mul_ne_zero (by positivity) (neg_ne_zero.mpr hbc.ne)) hbq,
      num_eq_mul_den, num_eq_mul_den]
    ring
  · have hbq : b = 0 := by
      rwa [Rat.num_eq_zero] at hb
    subst hbq
    simp [qdiv, Rat.mkRat_eq_div]
  · have hbq : b ≠ 0 := by
      intro h; rw [h] at hb; simp at hb
    have hbc : (0:ℚ) < ((b.num : ℚ)) := by exact_mod_cast hb
    rw [qdiv, if_neg (by omega), Rat.mkRat_eq_div]
    push_cast [Int.cast_natAbs]
    rw [abs_of_pos hbc]
    rw [div_eq_div_iff (by positivity) hbq, num_eq_mul_den, num_eq_mul_den]
    ring

theorem qmin_eq (a b : ℚ) : qmin a b = min a b := by
  rw [qmin]
  split
  · next h => exact (min_eq_right (le_of_lt h)).symm
  · next h => exact (min_eq_left (not_lt.mp h)).symm

theorem qge_iff (a b : ℚ) : qge a b = true ↔ b ≤ a := by
  rw [qge]
  cases hab : Rat.blt a b
  · exact iff_of_true rfl (not_lt.mp fun hlt => by
      rw [show Rat.blt a b = true from hlt] at hab; cases hab)
  · exact iff_of_false (by simp) (not_le.mpr (show a < b from hab))

theorem qgt_iff (a b : ℚ) : qgt a b = true ↔ b < a := Iff.rfl

theorem toList_mk (l : List Char) : (String.mk l).toList = l := rfl

theorem toList_append (a b : String) : (a ++ b).toList = a.toList ++ b.toList := rfl

theorem lowerChar_toNat_of_upper {c : Char} (h1 : 65 ≤ c.toNat) (h2 : c.toNat ≤ 90) :
    (lowerChar c).toNat = c.toNat + 32 := by
  rw [lowerChar, if_pos ⟨h1, h2⟩]
  have hv : (c.toNat + 32).isValidChar := by left; omega
  simp [Char.ofNat, hv]
  rfl

theorem lowerChar_low_or_self (c : Char) :
    lowerChar c = c ∨ (97 ≤ (lowerChar c).toNat ∧ (lowerChar c).toNat ≤ 122) := by
  by_cases h : 65 ≤ c.toNat ∧ c.toNat ≤ 90
  · right
    rw [lowerChar_toNat_of_upper h.1 h.2]
    omega
  · left
    rw [lowerChar, if_neg h]

theorem lowerChar_eq_self_of_lt {x : Char} (hx : x.toNat < 65) : lowerChar x = x := by
  rw [lowerChar, if_neg (by omega)]

theorem lowerChar_eq_iff_of_lt {x : Char} (hx : x.toNat < 65) (c : Char) :
    lowerChar c = x ↔ c = x := by
  constructor
  · intro h
    rcases lowerChar_low_or_self c with h' | ⟨h1, h2⟩
    · exact h'.symm.trans h
    · rw [h] at h1
      omega
  · intro h
    rw [h]
    exact lowerChar_eq_self_of_lt hx

theorem lowerChar_inj_special {c d : Char} (h : lowerChar c = lowerChar d)
    {x : Char} (hx : x.toNat < 65) : c = x ↔ d = x := by
  constructor
  · intro hc
    exact (lowerChar_eq_iff_of_lt hx d).mp (by rw [← h, hc, lowerChar_eq_self_of_lt hx])
  · intro hd
    exact (lowerChar_eq_iff_of_lt hx c).mp (by rw [h, hd, lowerChar_eq_self_of_lt hx])

theorem subAt_nil (l : List Char) : subAt l [] = true := by
  cases l <;> rfl

theorem subAt_mono (n : List Char) : ∀ l1 l2, subAt l1 n = true → subAt (l1 ++ l2) n = true := by
  induction n with
  | nil => intro l1 l2 _; exact subAt_nil _
  | cons b bs ih =>
    intro l1 l2 h
    cases l1 with
    | nil => simp [subAt] at h
    | cons a t =>
      simp only [subAt, Bool.and_eq_true, beq_iff_eq] at h
      simp only [List.cons_append, subAt, Bool.and_eq_true, beq_iff_eq]
      exact ⟨h.1, ih t l2 h.2⟩

theorem subAt_append_self (n rest : List Char) : subAt (n ++ rest) n = true := by
  induction n with
  | nil => exact subAt_nil _
  | cons c t ih => simp [subAt, ih]

theorem subSearch_of_subAt {l n : List Char} (h : subAt l n = true) : subSearch l n = true := by
  cases l with
  | nil =>
    cases n with
    | nil => rfl
    | cons b bs => simp [subAt] at h
  | cons c t => simp [subSearch, h]

theorem subSearch_append_left {l1 n : List Char} (l2 : List Char)
    (h : subSearch l1 n = true) : subSearch (l1 ++ l2) n = true := by
  induction l1 with
  | nil =>
    cases n with
    | nil => exact subSearch_of_subAt (subAt_nil _)
    | cons b bs => simp [subSearch] at h
  | cons c t ih =>
    simp only [subSearch, Bool.or_eq_true] at h
    rcases h with ha | hs
    · exact subSearch_of_subAt (subAt_mono n (c :: t) l2 ha)
    · simp only [List.cons_append, subSearch, Bool.or_eq_true]
      exact Or.inr (ih hs)

theorem strIncludes_append_left {a kw : String} (b : String)
    (h : strIncludes a kw = true) : strIncludes (a ++ b) kw = true := by
  rw [strIncludes, toList_append]
  exact subSearch_append_left _ h

theorem strLower_append (a b : String) : strLower (a ++ b) = strLower a ++ strLower b := by
  simp only [strLower, toList_append, List.map_append]
  rfl

theorem strEndsWith_iff (s t : String) : strEndsWith s t = true ↔ t.toList <:+ s.toList := by
  rw [strEndsWith]
  exact List.isSuffixOf_iff_suffix

theorem isVIP_iff (cfg : TriageConfig) (s : String) :
    _isVIP cfg s = true ↔
      s ∈ cfg.vipSenders ∨ ∃ d ∈ cfg.vipDomains, ("@" ++ d).toList <:+ s.toList := by
  rw [_isVIP]
  split
  · next hc =>
    simp only [true_iff]
    exact Or.inl (List.elem_iff.mp hc)
  · next hc =>
    rw [List.any_eq_true]
    constructor
    · rintro ⟨d, hd, hend⟩
      exact Or.inr ⟨d, hd, (strEndsWith_iff _ _).mp hend⟩
    · rintro (hmem | ⟨d, hd, hsuf⟩)
      · exact absurd (List.elem_iff.mpr hmem) (by simpa using hc)
      · exact ⟨d, hd, (strEndsWith_iff _ _).mpr hsuf⟩

theorem isProtected_iff (cfg : TriageConfig) (s : String) :
    _isProtected cfg s = true ↔
      s ∈ cfg.keepSenders ∨ ∃ d ∈ cfg.keepDomains, ("@" ++ d).toList <:+ s.toList := by
  rw [_isProtected]
  split
  · next hc =>
    simp only [true_iff]
    exact Or.inl (List.elem_iff.mp hc)
  · next hc =>
    rw [List.any_eq_true]
    constructor
    · rintro ⟨d, hd, hend⟩
      exact Or.inr ⟨d, hd, (strEndsWith_iff _ _).mp hend⟩
    · rintro (hmem | ⟨d, hd, hsuf⟩)
      · exact absurd (List.elem_iff.mpr hmem) (by simpa using hc)
      · exact ⟨d, hd, (strEndsWith_iff _ _).mpr hsuf⟩

theorem grabGo_rel : ∀ (a b acc1 acc2 : List Char),
    a.map lowerChar = b.map lowerChar → acc1.map lowerChar = acc2.map lowerChar →
    Option.map (List.map lowerChar) (grabGo acc1 a) =
      Option.map (List.map lowerChar) (grabGo acc2 b) := by
  intro a
  induction a with
  | nil =>
    intro b acc1 acc2 hab _
    cases b with
    | nil => rfl
    | cons d b' => simp at hab
  | cons c a' ih =>
    intro b acc1 acc2 hab hacc
    cases b with
    | nil => simp at hab
    | cons d b' =>
      simp only [List.map_cons, List.cons.injEq] at hab
      obtain ⟨hcd, hab'⟩ := hab
      simp only [grabGo]
      by_cases hgt : c = '>'
      · have hd : d = '>' := (lowerChar_inj_special hcd (by decide)).mp hgt
        rw [if_pos hgt, if_pos hd]
        simp only [Option.map]
        rw [List.map_reverse, List.map_reverse, hacc]
      · have hd : d ≠ '>' := fun h => hgt ((lowerChar_inj_special hcd (by decide)).mpr h)
        rw [if_neg hgt, if_neg hd]
        by_cases hnl : c = '\n'
        · have hdn : d = '\n' := (lowerChar_inj_special hcd (by decide)).mp hnl
          rw [if_pos hnl, if_pos hdn]
        · have hdn : d ≠ '\n' := fun h => hnl ((lowerChar_inj_special hcd (by decide)).mpr h)
          rw [if_neg hnl, if_neg hdn]
          exact ih b' (c :: acc1) (d :: acc2) hab' (by simp [hcd, hacc])

theorem grabGroup_rel : ∀ a b : List Char, a.map lowerChar = b.map lowerChar →
    Option.map (List.map lowerChar) (grabGroup a) =
      Option.map (List.map lowerChar) (grabGroup b) := by
  intro a b hab
  cases a with
  | nil =>
    cases b with
    | nil => rfl
    | cons d b' => simp at hab
  | cons c a' =>
    cases b with
    | nil => simp at hab
    | cons d b' =>
      simp only [List.map_cons, List.cons.injEq] at hab
      obtain ⟨hcd, hab'⟩ := hab
      simp only [grabGroup]
      by_cases hnl : c = '\n'
      · rw [if_pos hnl, if_pos ((lowerChar_inj_special hcd (by decide)).mp hnl)]
      · rw [if_neg hnl, if_neg (fun h => hnl ((lowerChar_inj_special hcd (by decide)).mpr h))]
        exact grabGo_rel a' b' [c] [d] hab' (by simp [hcd])

theorem findAngle_rel : ∀ a b : List Char, a.map lowerChar = b.map lowerChar →
    Option.map (List.map lowerChar) (findAngle a) =
      Option.map (List.map lowerChar) (findAngle b) := by
  intro a
  induction a with
  | nil =>
    intro b hab
    cases b with
    | nil => rfl
    | cons d b' => simp at hab
  | cons c a' ih =>
    intro b hab
    cases b with
    | nil => simp at hab
    | cons d b' =>
      simp only [List.map_cons, List.cons.injEq] at hab
      obtain ⟨hcd, hab'⟩ := hab
      simp only [findAngle]
      by_cases hlt : c = '<'
      · have hd := (lowerChar_inj_special hcd (by decide)).mp hlt
        rw [if_pos hlt, if_pos hd]
        have hg := grabGroup_rel a' b' hab'
        cases hga : grabGroup a' with
        | none =>
          cases hgb : grabGroup b' with
          | none => exact ih b' hab'
          | some g2 => rw [hga, hgb] at hg; simp at hg
        | some g1 =>
          cases hgb : grabGroup b' with
          | none => rw [hga, hgb] at hg; simp at hg
          | some g2 =>
            rw [hga, hgb] at hg
            simpa using hg
      · have hd : d ≠ '<' := fun h => hlt ((lowerChar_inj_special hcd (by decide)).mpr h)
        rw [if_neg hlt, if_neg hd]
        exact ih b' hab'

theorem extractSender_lower_invariant (s t : String)
    (h : s.toList.map lowerChar = t.toList.map lowerChar) :
    _extractSenderEmail s = _extractSenderEmail t := by
  rw [_extractSenderEmail, _extractSenderEmail]
  have hf := findAngle_rel s.toList t.toList h
  cases ha : findAngle s.toList with
  | none =>
    cases hb : findAngle t.toList with
    | none => rw [strLower, strLower, h]
    | some g => rw [ha, hb] at hf; simp at hf
  | some g1 =>
    cases hb : findAngle t.toList with
    | none => rw [ha, hb] at hf; simp at hf
    | some g2 =>
      rw [ha, hb] at hf
      have hgg : g1.map lowerChar = g2.map lowerChar := by simpa using hf
      show strLower (String.mk g1) = strLower (String.mk g2)
      rw [strLower, strLower, toList_mk, toList_mk, hgg]

theorem sumVals_nil : sumVals [] = 0 := rfl

theorem sumVals_cons (k : String) (v : ℚ) (t : List (String × ℚ)) :
    sumVals ((k, v) :: t) = v + sumVals t := by
  simp [sumVals]

theorem sumVals_bumpScore (m : List (String × ℚ)) (l : String) (x : ℚ) :
    sumVals (bumpScore m l x) = sumVals m + x := by
  induction m with
  | nil => simp [bumpScore, sumVals]
  | cons kv t ih =>
    obtain ⟨k, v⟩ := kv
    rw [bumpScore]
    by_cases hk : k = l
    · rw [if_pos hk, sumVals_cons, sumVals_cons, qadd_eq]
      ring
    · rw [if_neg hk, sumVals_cons, sumVals_cons, ih]
      ring

theorem pickBest_go_nonneg (m : List (String × ℚ)) :
    ∀ acc : Option String × ℚ, 0 ≤ acc.2 →
      0 ≤ (m.foldl (fun acc p => if qgt p.2 acc.2 then (some p.1, p.2) else acc) acc).2 := by
  induction m with
  | nil => intro acc h; exact h
  | cons p t ih =>
    intro acc h
    simp only [List.foldl_cons]
    by_cases hq : qgt p.2 acc.2 = true
    · rw [if_pos hq]
      exact ih _ (le_of_lt (lt_of_le_of_lt h ((qgt_iff _ _).mp hq)))
    · rw [if_neg hq]
      exact ih _ h

theorem pickBest_nonneg (m : List (String × ℚ)) : 0 ≤ (pickBest m).2 :=
  pickBest_go_nonneg m (none, 0) le_rfl

theorem scoreFold_snd (text : String) :
    ∀ (kp : List (String × KeywordProfile)) (init : List (String × ℚ) × ℚ),
      init.2 = sumVals init.1 →
      (kp.foldl (scoreStep text) init).2 = sumVals (kp.foldl (scoreStep text) init).1 := by
  intro kp
  induction kp with
  | nil => intro init h; exact h
  | cons kv t ih =>
    intro init h
    simp only [List.foldl_cons]
    apply ih
    rw [scoreStep]
    by_cases hin : strIncludes text kv.1 = true
    · rw [if_pos hin]
      by_cases hlb : kv.2.commonLabel = ""
      · rw [if_pos hlb]
        exact h
      · rw [if_neg hlb]
        show qadd init.2 _ = sumVals (bumpScore init.1 _ _)
        rw [sumVals_bumpScore, qadd_eq, h]
    · rw [if_neg hin]
      exact h

theorem scoreInit_snd (sp : List (String × SenderProfile)) (sender : String) :
    (scoreInit sp sender).2 = sumVals (scoreInit sp sender).1 := by
  rw [scoreInit]
  cases List.lookup sender sp with
  | none => simp [sumVals]
  | some p =>
    by_cases hp : p.importance = "high"
    · simp [hp, sumVals]
    · simp [hp, sumVals]

theorem scoreAccum_snd (sp : List (String × SenderProfile))
    (kp : List (String × KeywordProfile)) (sender text : String) :
    (scoreAccum sp kp sender text).2 = sumVals (scoreAccum sp kp sender text).1 := by
  rw [scoreAccum]
  exact scoreFold_snd text kp _ (scoreInit_snd sp sender)

/-- C1: VIP precedence. When the normalized sender is listed in
`vipSenders`, or ends with `"@" + d` for a configured VIP domain `d`,
`classifyThread` returns exactly the `star`/`VIP`/confidence-1 decision,
for every subject, body and statistics bundle (even a malformed one): the
VIP check is evaluated before every other signal. -/
theorem C1_vip_precedence (cfg : TriageConfig) (intel : Option Intelligence)
    (fromStr subject body : String)
    (h : _extractSenderEmail fromStr ∈ cfg.vipSenders ∨
      ∃ d ∈ cfg.vipDomains, ("@" ++ d).toList <:+ (_extractSenderEmail fromStr).toList) :
    classifyThread cfg intel fromStr subject body =
      Except.ok ⟨TriageAction.star, some "VIP", 1, "VIP sender"⟩ := by
  have hv : _isVIP cfg (_extractSenderEmail fromStr) = true := (isVIP_iff _ _).mpr h
  simp [classifyThread, hv]

/-- Witness for C1 at a concrete VIP input. -/
theorem C1_vip_precedence_witness :
    (_extractSenderEmail "Provost Office <Provost@Alaska.edu>" ∈ defaultConfig.vipSenders ∨
      ∃ d ∈ defaultConfig.vipDomains,
        ("@" ++ d).toList <:+ (_extractSenderEmail "Provost Office <Provost@Alaska.edu>").toList) ∧
    classifyThread defaultConfig none "Provost Office <Provost@Alaska.edu>" "hello" "world" =
      Except.ok ⟨TriageAction.star, some "VIP", 1, "VIP sender"⟩ :=
  ⟨Or.inl (by decide),
   C1_vip_precedence defaultConfig none "Provost Office <Provost@Alaska.edu>" "hello" "world"
     (Or.inl (by decide))⟩

/-- C2: protected precedence. When the normalized sender is not VIP but is
listed in `keepSenders` or ends with `"@" + d` for a configured protected
domain `d`, `classifyThread` returns exactly the `keep`/confidence-1
"Protected sender" decision, independent of the statistics bundle and of
subject and body. -/
theorem C2_protected_precedence (cfg : TriageConfig) (intel : Option Intelligence)
    (fromStr subject body : String)
    (hnv : ¬(_extractSenderEmail fromStr ∈ cfg.vipSenders ∨
      ∃ d ∈ cfg.vipDomains, ("@" ++ d).toList <:+ (_extractSenderEmail fromStr).toList))
    (hp : _extractSenderEmail fromStr ∈ cfg.keepSenders ∨
      ∃ d ∈ cfg.keepDomains, ("@" ++ d).toList <:+ (_extractSenderEmail fromStr).toList) :
    classifyThread cfg intel fromStr subject body =
      Except.ok ⟨TriageAction.keep, none, 1, "Protected sender"⟩ := by
  have hv : _isVIP cfg (_extractSenderEmail fromStr) = false :=
    Bool.eq_false_iff.mpr fun htr => hnv ((isVIP_iff _ _).mp htr)
  have hpp : _isProtected cfg (_extractSenderEmail fromStr) = true :=
    (isProtected_iff _ _).mpr hp
  simp [classifyThread, hv, hpp]

/-- Witness for C2 at a concrete protected, non-VIP input. -/
theorem C2_protected_precedence_witness :
    ¬(_extractSenderEmail "Boss <Boss@Corp.com>" ∈
        (⟨[], [], ["boss@corp.com"], ["corp.com"], mkRat 8 10, mkRat 5 10⟩ : TriageConfig).vipSenders ∨
      ∃ d ∈ (⟨[], [], ["boss@corp.com"], ["corp.com"], mkRat 8 10, mkRat 5 10⟩ : TriageConfig).vipDomains,
        ("@" ++ d).toList <:+ (_extractSenderEmail "Boss <Boss@Corp.com>").toList) ∧
    classifyThread ⟨[], [], ["boss@corp.com"], ["corp.com"], mkRat 8 10, mkRat 5 10⟩ none
        "Boss <Boss@Corp.com>" "subject" "body" =
      Except.ok ⟨TriageAction.keep, none, 1, "Protected sender"⟩ :=
  ⟨by decide,
   C2_protected_precedence ⟨[], [], ["boss@corp.com"], ["corp.com"], mkRat 8 10, mkRat 5 10⟩
     none "Boss <Boss@Corp.com>" "subject" "body" (by decide) (Or.inl (by decide))⟩

/-- C5 counterexample: under the default configuration the sender
`x@alaska.edu` matches the VIP domain `alaska.edu`, so with a null bundle
and subject "Meeting tomorrow" `classifyThread` returns the star/VIP
decision with confidence 1 — not the claimed Meetings labeling with
action `label` and confidence 0.8. -/
theorem C5_counterexample :
    classifyThread defaultConfig none "x@alaska.edu" "Meeting tomorrow" "" =
      Except.ok ⟨TriageAction.star, some "VIP", 1, "VIP sender"⟩ ∧
    TriageAction.star ≠ TriageAction.label := by
  decide

/-- C5 amended: on the same input the rule-based fallback yields the
Meetings/0.8 decision, and `classifyThread` returns it exactly when the
configuration makes `x@alaska.edu` neither VIP nor protected (under the
default configuration the VIP check fires first instead). -/
theorem C5_fallback_meetings (cfg : TriageConfig) (body : String)
    (hnv : _isVIP cfg "x@alaska.edu" = false)
    (hnp : _isProtected cfg "x@alaska.edu" = false) :
    classifyThread cfg none "x@alaska.edu" "Meeting tomorrow" body =
      Except.ok ⟨TriageAction.label, some "Meetings", mkRat 8 10, "Meeting related"⟩ ∧
    _ruleBasedClassification "x@alaska.edu" "Meeting tomorrow" (snippetOf body) =
      ⟨TriageAction.label, some "Meetings", mkRat 8 10, "Meeting related"⟩ := by
  have hext : _extractSenderEmail "x@alaska.edu" = "x@alaska.edu" := by decide
  have hm : strIncludes (ruleText "Meeting tomorrow" (snippetOf body)) "meeting" = true := by
    rw [ruleText, strLower_append]
    have hpre : strLower ("Meeting tomorrow" ++ " ") = "meeting tomorrow " := by decide
    rw [hpre]
    exact strIncludes_append_left _ (by decide)
  have hor : (strIncludes (ruleText "Meeting tomorrow" (snippetOf body)) "meeting"
      || strIncludes (ruleText "Meeting tomorrow" (snippetOf body)) "schedule") = true := by
    rw [hm]
    rfl
  have hrb : _ruleBasedClassification "x@alaska.edu" "Meeting tomorrow" (snippetOf body) =
      ⟨TriageAction.label, some "Meetings", mkRat 8 10, "Meeting related"⟩ := by
    rw [_ruleBasedClassification, if_pos (by decide :
      (strEndsWith "x@alaska.edu" "@alaska.edu" || strEndsWith "x@alaska.edu" "@ua.edu") = true),
      if_pos hor]
  refine ⟨?_, hrb⟩
  rw [classifyThread, hext, if_neg (Bool.eq_false_iff.mp hnv),
    if_neg (Bool.eq_false_iff.mp hnp), hrb]

/-- Witness for C5 amended under a configuration with empty VIP and
protected lists. -/
theorem C5_fallback_meetings_witness :
    _isVIP ⟨[], [], [], [], mkRat 8 10, mkRat 5 10⟩ "x@alaska.edu" = false ∧
    classifyThread ⟨[], [], [], [], mkRat 8 10, mkRat 5 10⟩ none "x@alaska.edu"
        "Meeting tomorrow" "" =
      Except.ok ⟨TriageAction.label, some "Meetings", mkRat 8 10, "Meeting related"⟩ :=
  ⟨by decide,
   (C5_fallback_meetings ⟨[], [], [], [], mkRat 8 10, mkRat 5 10⟩ "" (by decide) (by decide)).1⟩

/-- C8 counterexample: membership is not insensitive to the case of the
configured entry.  With the VIP sender list containing the mixed-case
entry `Provost@alaska.edu`, the (already lowercase) normalized sender
`provost@alaska.edu` is not matched, while the all-lowercase entry does
match: changing only the case of the configured entry changes the result. -/
theorem C8_counterexample :
    _isVIP ⟨["Provost@alaska.edu"], [], [], [], mkRat 8 10, mkRat 5 10⟩
        (_extractSenderEmail "provost@alaska.edu") = false ∧
    _isVIP ⟨["provost@alaska.edu"], [], [], [], mkRat 8 10, mkRat 5 10⟩
        (_extractSenderEmail "provost@alaska.edu") = true := by
  decide

/-- C8 amended: case handling of the membership checks.  The sender side is
case-insensitive — two raw `From` strings equal up to lowercasing
normalize to the same sender, because `_extractSenderEmail` lowercases —
while configured entries are compared literally; a domain entry matches
exactly when the normalized sender ends with the literal `"@" + domain`. -/
theorem C8_case_handling :
    (∀ s t : String, s.toList.map lowerChar = t.toList.map lowerChar →
        _extractSenderEmail s = _extractSenderEmail t) ∧
    (∀ (cfg : TriageConfig) (s : String),
        _isVIP cfg s = true ↔
          s ∈ cfg.vipSenders ∨ ∃ d ∈ cfg.vipDomains, ("@" ++ d).toList <:+ s.toList) ∧
    (∀ (cfg : TriageConfig) (s : String),
        _isProtected cfg s = true ↔
          s ∈ cfg.keepSenders ∨ ∃ d ∈ cfg.keepDomains, ("@" ++ d).toList <:+ s.toList) :=
  ⟨extractSender_lower_invariant, isVIP_iff, isProtected_iff⟩

/-- Witness for C8 amended at concrete inputs. -/
theorem C8_case_handling_witness :
    _extractSenderEmail "JANE <J.Doe@ALASKA.edu>" = _extractSenderEmail "jane <j.doe@alaska.edu>" ∧
    _isVIP defaultConfig "j.doe@alaska.edu" = true :=
  ⟨C8_case_handling.1 "JANE <J.Doe@ALASKA.edu>" "jane <j.doe@alaska.edu>" (by decide),
   (C8_case_handling.2.1 defaultConfig "j.doe@alaska.edu").mpr
     (Or.inr ⟨"alaska.edu", by decide, by decide⟩)⟩

theorem cwi_ok_spec (i : Intelligence) (sender subject snippet : String) (d : Decision)
    (h : _classifyWithIntelligence i sender subject snippet = Except.ok d) :
    0 ≤ d.confidence ∧ d.confidence ≤ 1 ∧
    (d.action = TriageAction.label ∨ d.action = TriageAction.keep) := by
  rw [_classifyWithIntelligence] at h
  cases hsp : i.senderProfiles with
  | none =>
    simp only [hsp] at h
    exact Except.noConfusion h
  | some sp =>
    simp only [hsp] at h
    cases hpb : pickBest (scoreAccum sp (i.keywordProfiles.getD []) sender
        (ruleText subject snippet)).1 with
    | mk ol best =>
      cases ol with
      | some l =>
        simp only [hpb] at h
        by_cases hq : qgt (scoreAccum sp (i.keywordProfiles.getD []) sender
            (ruleText subject snippet)).2 0 = true
        · rw [if_pos hq] at h
          have hd := (Except.ok.inj h).symm
          subst hd
          refine ⟨?_, ?_, Or.inl rfl⟩
          · show 0 ≤ qmin (qdiv best _) 1
            rw [qmin_eq, qdiv_eq]
            apply le_min
            · apply div_nonneg
              · have hb := pickBest_nonneg (scoreAccum sp (i.keywordProfiles.getD []) sender
                  (ruleText subject snippet)).1
                rw [hpb] at hb
                exact hb
              · exact le_of_lt ((qgt_iff _ _).mp hq)
            · norm_num
          · show qmin (qdiv best _) 1 ≤ 1
            rw [qmin_eq]
            exact min_le_right _ _
        · rw [if_neg hq] at h
          have hd := (Except.ok.inj h).symm
          subst hd
          exact ⟨le_refl 0, by norm_num, Or.inr rfl⟩
      | none =>
        simp only [hpb] at h
        have hd := (Except.ok.inj h).symm
        subst hd
        exact ⟨le_refl 0, by norm_num, Or.inr rfl⟩

theorem cwi_isOk (i : Intelligence) (sp : List (String × SenderProfile))
    (hsp : i.senderProfiles = some sp) (sender subject snippet : String) :
    ∃ d, _classifyWithIntelligence i sender subject snippet = Except.ok d := by
  rw [_classifyWithIntelligence]
  simp only [hsp]
  cases hpb : pickBest (scoreAccum sp (i.keywordProfiles.getD []) sender
      (ruleText subject snippet)).1 with
  | mk ol best =>
    cases ol with
    | some l =>
      simp only [hpb]
      by_cases hq : qgt (scoreAccum sp (i.keywordProfiles.getD []) sender
          (ruleText subject snippet)).2 0 = true
      · rw [if_pos hq]
        exact ⟨_, rfl⟩
      · rw [if_neg hq]
        exact ⟨_, rfl⟩
    | none =>
      simp only [hpb]
      exact ⟨_, rfl⟩

theorem ruleBased_spec (sender subject snippet : String) :
    0 ≤ (_ruleBasedClassification sender subject snippet).confidence ∧
    (_ruleBasedClassification sender subject snippet).confidence ≤ 1 ∧
    ((_ruleBasedClassification sender subject snippet).action = TriageAction.label ∨
      (_ruleBasedClassification sender subject snippet).action = TriageAction.keep) := by
  rw [_ruleBasedClassification]
  split_ifs <;>
    exact ⟨by norm_num [Rat.mkRat_eq_div], by norm_num [Rat.mkRat_eq_div], by norm_num⟩

theorem classifyThread_cases (cfg : TriageConfig) (intel : Option Intelligence)
    (fromStr subject body : String) (d : Decision)
    (h : classifyThread cfg intel fromStr subject body = Except.ok d) :
    d = ⟨TriageAction.star, some "VIP", 1, "VIP sender"⟩ ∨
    d = ⟨TriageAction.keep, none, 1, "Protected sender"⟩ ∨
    (∃ i, intel = some i ∧ _classifyWithIntelligence i (_extractSenderEmail fromStr)
      subject (snippetOf body) = Except.ok d) ∨
    d = _ruleBasedClassification (_extractSenderEmail fromStr) subject (snippetOf body) := by
  rw [classifyThread.eq_def] at h
  by_cases hv : _isVIP cfg (_extractSenderEmail fromStr) = true
  · rw [if_pos hv] at h
    exact Or.inl (Except.ok.inj h).symm
  · rw [if_neg hv] at h
    by_cases hp : _isProtected cfg (_extractSenderEmail fromStr) = true
    · rw [if_pos hp] at h
      exact Or.inr (Or.inl (Except.ok.inj h).symm)
    · rw [if_neg hp] at h
      cases intel with
      | none =>
        exact Or.inr (Or.inr (Or.inr (Except.ok.inj h).symm))
      | some i =>
        cases hw : _classifyWithIntelligence i (_extractSenderEmail fromStr) subject
            (snippetOf body) with
        | error e =>
          simp only [hw] at h
          exact Except.noConfusion h
        | ok dw =>
          simp only [hw] at h
          by_cases hg : qge dw.confidence cfg.mediumConfidence = true
          · rw [if_pos hg] at h
            have hd := Except.ok.inj h
            subst hd
            exact Or.inr (Or.inr (Or.inl ⟨i, rfl, hw⟩))
          · rw [if_neg hg] at h
            exact Or.inr (Or.inr (Or.inr (Except.ok.inj h).symm))

theorem ruleBased_default (sender subject snippet : String)
    (hms : (strIncludes (ruleText subject snippet) "meeting"
      || strIncludes (ruleText subject snippet) "schedule") = false)
    (hsg : (strIncludes (ruleText subject snippet) "student"
      || strIncludes (ruleText subject snippet) "grade") = false)
    (hdf : (strIncludes (ruleText subject snippet) "department"
      || strIncludes (ruleText subject snippet) "faculty") = false)
    (hun : (strIncludes (ruleText subject snippet) "unsubscribe"
      || strIncludes (ruleText subject snippet) "newsletter") = false) :
    _ruleBasedClassification sender subject snippet =
      ⟨TriageAction.keep, none, mkRat 3 10, "No specific rule matched"⟩ := by
  rw [_ruleBasedClassification]
  by_cases hedu : (strEndsWith sender "@alaska.edu" || strEndsWith sender "@ua.edu") = true
  · rw [if_pos hedu, if_neg (Bool.eq_false_iff.mp hms), if_neg (Bool.eq_false_iff.mp hsg),
      if_neg (Bool.eq_false_iff.mp hdf), if_neg (Bool.eq_false_iff.mp hun)]
  · rw [if_neg hedu, if_neg (Bool.eq_false_iff.mp hun)]

/-- C3: historical gating. For a non-VIP, non-protected sender, when a
statistics bundle is provided and its scorer run yields decision `d`,
`classifyThread` returns `d` exactly when `d.confidence ≥ MEDIUM_CONFIDENCE`
(the boundary is inclusive) and the rule-based fallback's result when the
confidence is strictly below the threshold; with a null bundle it returns
the rule-based fallback's result. -/
theorem C3_historical_gating (cfg : TriageConfig) (i : Intelligence)
    (fromStr subject body : String) (d : Decision)
    (hnv : _isVIP cfg (_extractSenderEmail fromStr) = false)
    (hnp : _isProtected cfg (_extractSenderEmail fromStr) = false)
    (hok : _classifyWithIntelligence i (_extractSenderEmail fromStr) subject
      (snippetOf body) = Except.ok d) :
    classifyThread cfg (some i) fromStr subject body =
      Except.ok (if cfg.mediumConfidence ≤ d.confidence then d
        else _ruleBasedClassification (_extractSenderEmail fromStr) subject (snippetOf body)) ∧
    classifyThread cfg none fromStr subject body =
      Except.ok (_ruleBasedClassification (_extractSenderEmail fromStr) subject (snippetOf body)) := by
  constructor
  · rw [classifyThread, if_neg (Bool.eq_false_iff.mp hnv), if_neg (Bool.eq_false_iff.mp hnp)]
    simp only [hok]
    by_cases hc : cfg.mediumConfidence ≤ d.confidence
    · rw [if_pos (show qge d.confidence cfg.mediumConfidence = true from (qge_iff _ _).mpr hc),
        if_pos hc]
    · rw [if_neg (show ¬qge d.confidence cfg.mediumConfidence = true from
          fun h => hc ((qge_iff _ _).mp h)),
        if_neg hc]
  · rw [classifyThread, if_neg (Bool.eq_false_iff.mp hnv), if_neg (Bool.eq_false_iff.mp hnp)]

/-- Witness for C3 with an empty-maps bundle on a non-VIP sender: the
scorer yields confidence 0, the gate fails, and the fallback result is
returned. -/
theorem C3_historical_gating_witness :
    _classifyWithIntelligence ⟨some [], some []⟩ (_extractSenderEmail "a@b.com") "hi"
        (snippetOf "") = Except.ok ⟨TriageAction.keep, none, 0, "No pattern match"⟩ ∧
    classifyThread defaultConfig (some ⟨some [], some []⟩) "a@b.com" "hi" "" =
      Except.ok (if defaultConfig.mediumConfidence ≤
          (⟨TriageAction.keep, none, 0, "No pattern match"⟩ : Decision).confidence then
          (⟨TriageAction.keep, none, 0, "No pattern match"⟩ : Decision)
        else _ruleBasedClassification (_extractSenderEmail "a@b.com") "hi" (snippetOf "")) :=
  ⟨by decide,
   (C3_historical_gating defaultConfig ⟨some [], some []⟩ "a@b.com" "hi" ""
     ⟨TriageAction.keep, none, 0, "No pattern match"⟩ (by decide) (by decide) (by decide)).1⟩

/-- C6: the confidence of every successful classification lies in `[0, 1]`,
for every configuration, bundle (arbitrary sender and keyword weights,
including negative or huge ones) and email; in particular every successful
historical-scorer result is bounded the same way, its clamped
`min(bestScore/totalWeight, 1)` never exceeding 1. -/
theorem C6_confidence_bounds :
    (∀ (cfg : TriageConfig) (intel : Option Intelligence) (fromStr subject body : String)
      (d : Decision), classifyThread cfg intel fromStr subject body = Except.ok d →
      0 ≤ d.confidence ∧ d.confidence ≤ 1) ∧
    (∀ (i : Intelligence) (sender subject snippet : String) (d : Decision),
      _classifyWithIntelligence i sender subject snippet = Except.ok d →
      0 ≤ d.confidence ∧ d.confidence ≤ 1) := by
  constructor
  · intro cfg intel fromStr subject body d h
    rcases classifyThread_cases cfg intel fromStr subject body d h with
      rfl | rfl | ⟨i, _, hw⟩ | rfl
    · exact ⟨by norm_num, by norm_num⟩
    · exact ⟨by norm_num, by norm_num⟩
    · have hb := cwi_ok_spec i _ _ _ d hw
      exact ⟨hb.1, hb.2.1⟩
    · have hb := ruleBased_spec (_extractSenderEmail fromStr) subject (snippetOf body)
      exact ⟨hb.1, hb.2.1⟩
  · intro i sender subject snippet d h
    have hb := cwi_ok_spec i sender subject snippet d h
    exact ⟨hb.1, hb.2.1⟩

/-- Witness for C6 at a concrete classification. -/
theorem C6_confidence_bounds_witness :
    classifyThread defaultConfig none "a@b.com" "hello" "" =
      Except.ok ⟨TriageAction.keep, none, mkRat 3 10, "No specific rule matched"⟩ ∧
    (0 ≤ (mkRat 3 10) ∧ (mkRat 3 10) ≤ 1) :=
  ⟨by decide,
   C6_confidence_bounds.1 defaultConfig none "a@b.com" "hello" ""
     ⟨TriageAction.keep, none, mkRat 3 10, "No specific rule matched"⟩ (by decide)⟩

/-- C9: the classifier never decides `archive`: every successful
classification's action is `star`, `keep` or `label`, even though the
decision type and the downstream switch in `processInbox` have an archive
case. -/
theorem C9_never_archive (cfg : TriageConfig) (intel : Option Intelligence)
    (fromStr subject body : String) (d : Decision)
    (h : classifyThread cfg intel fromStr subject body = Except.ok d) :
    d.action = TriageAction.star ∨ d.action = TriageAction.keep ∨
      d.action = TriageAction.label := by
  rcases classifyThread_cases cfg intel fromStr subject body d h with
    rfl | rfl | ⟨i, _, hw⟩ | rfl
  · exact Or.inl rfl
  · exact Or.inr (Or.inl rfl)
  · rcases (cwi_ok_spec i _ _ _ d hw).2.2 with ha | ha
    · exact Or.inr (Or.inr ha)
    · exact Or.inr (Or.inl ha)
  · rcases (ruleBased_spec (_extractSenderEmail fromStr) subject (snippetOf body)).2.2 with
      ha | ha
    · exact Or.inr (Or.inr ha)
    · exact Or.inr (Or.inl ha)

/-- Witness for C9 at a concrete classification. -/
theorem C9_never_archive_witness :
    classifyThread defaultConfig none "spam@shop.com" "sale" "click to unsubscribe now" =
      Except.ok ⟨TriageAction.label, some "Newsletters", mkRat 9 10, "Newsletter detected"⟩ ∧
    (TriageAction.label = TriageAction.star ∨ TriageAction.label = TriageAction.keep ∨
      TriageAction.label = TriageAction.label) :=
  ⟨by decide,
   C9_never_archive defaultConfig none "spam@shop.com" "sale" "click to unsubscribe now"
     ⟨TriageAction.label, some "Newsletters", mkRat 9 10, "Newsletter detected"⟩ (by decide)⟩

/-- C7 counterexample: a malformed bundle missing `senderProfiles` makes
the classifier throw.  For the non-VIP, non-protected sender `a@b.com` the
historical branch reads `senderProfiles[sender]` off `undefined`, a JS
`TypeError`, which propagates out of `classifyThread` — it does not return
a decision. -/
theorem C7_counterexample :
    classifyThread defaultConfig (some ⟨none, some []⟩) "a@b.com" "" "" =
      Except.error "TypeError" := by
  decide

/-- C7 amended: the classifier never throws as long as a provided bundle
has its `senderProfiles` field (whatever its contents), and with a null
bundle; a missing `keywordProfiles` field is fail-soft — the `|| {}` guard
makes it behave exactly like an empty keyword map.  Only a non-null bundle
missing `senderProfiles` raises (the preceding counterexample). -/
theorem C7_fail_soft :
    (∀ (cfg : TriageConfig) (i : Intelligence) (sp : List (String × SenderProfile))
      (fromStr subject body : String), i.senderProfiles = some sp →
      ∃ d, classifyThread cfg (some i) fromStr subject body = Except.ok d) ∧
    (∀ (cfg : TriageConfig) (fromStr subject body : String),
      ∃ d, classifyThread cfg none fromStr subject body = Except.ok d) ∧
    (∀ (i : Intelligence) (sp : List (String × SenderProfile)) (sender subject snippet : String),
      i.senderProfiles = some sp →
      _classifyWithIntelligence i sender subject snippet =
        _classifyWithIntelligence ⟨some sp, some (i.keywordProfiles.getD [])⟩
          sender subject snippet) := by
  refine ⟨?_, ?_, ?_⟩
  · intro cfg i sp fromStr subject body hsp
    rw [classifyThread]
    by_cases hv : _isVIP cfg (_extractSenderEmail fromStr) = true
    · rw [if_pos hv]
      exact ⟨_, rfl⟩
    · rw [if_neg hv]
      by_cases hp : _isProtected cfg (_extractSenderEmail fromStr) = true
      · rw [if_pos hp]
        exact ⟨_, rfl⟩
      · rw [if_neg hp]
        obtain ⟨dw, hdw⟩ := cwi_isOk i sp hsp (_extractSenderEmail fromStr) subject
          (snippetOf body)
        simp only [hdw]
        by_cases hg : qge dw.confidence cfg.mediumConfidence = true
        · rw [if_pos hg]
          exact ⟨_, rfl⟩
        · rw [if_neg hg]
          exact ⟨_, rfl⟩
  · intro cfg fromStr subject body
    rw [classifyThread]
    by_cases hv : _isVIP cfg (_extractSenderEmail fromStr) = true
    · rw [if_pos hv]
      exact ⟨_, rfl⟩
    · rw [if_neg hv]
      by_cases hp : _isProtected cfg (_extractSenderEmail fromStr) = true
      · rw [if_pos hp]
        exact ⟨_, rfl⟩
      · rw [if_neg hp]
        exact ⟨_, rfl⟩
  · intro i sp sender subject snippet hsp
    rw [_classifyWithIntelligence, _classifyWithIntelligence]
    simp only [hsp]
    rfl

/-- Witness for C7 amended: a bundle with `senderProfiles` present but
`keywordProfiles` missing still classifies (fail-soft), on a sender with no
`@` and empty subject/snippet. -/
theorem C7_fail_soft_witness :
    (⟨some [], none⟩ : Intelligence).senderProfiles = some [] ∧
    classifyThread defaultConfig (some ⟨some [], none⟩) "not-an-address" "" "" =
      Except.ok ⟨TriageAction.keep, none, mkRat 3 10, "No specific rule matched"⟩ := by
  refine ⟨rfl, ?_⟩
  obtain ⟨d, hd⟩ := C7_fail_soft.1 defaultConfig ⟨some [], none⟩ [] "not-an-address" "" "" rfl
  have hval : classifyThread defaultConfig (some ⟨some [], none⟩) "not-an-address" "" "" =
      Except.ok ⟨TriageAction.keep, none, mkRat 3 10, "No specific rule matched"⟩ := by decide
  exact hval

/-- C10: unanimity, not magnitude. When the accumulated score map has
exactly one entry `(l, w)` with `w > 0` — e.g. only the high-importance
sender bonus, or all matched keywords sharing one top label — `bestScore`
equals `totalWeight`, so the scorer's confidence is exactly 1 however small
`w` is; with any `MEDIUM_CONFIDENCE ≤ 1` the historical result then always
passes the gate and is returned for a non-VIP, non-protected sender. -/
theorem C10_unanimous_confidence (cfg : TriageConfig) (i : Intelligence)
    (sp : List (String × SenderProfile)) (fromStr subject body : String)
    (l : String) (w : ℚ)
    (hsp : i.senderProfiles = some sp)
    (hmap : (scoreAccum sp (i.keywordProfiles.getD []) (_extractSenderEmail fromStr)
      (ruleText subject (snippetOf body))).1 = [(l, w)])
    (hw : 0 < w)
    (hnv : _isVIP cfg (_extractSenderEmail fromStr) = false)
    (hnp : _isProtected cfg (_extractSenderEmail fromStr) = false)
    (hmed : cfg.mediumConfidence ≤ 1) :
    _classifyWithIntelligence i (_extractSenderEmail fromStr) subject (snippetOf body) =
      Except.ok ⟨TriageAction.label, some l, 1, "Historical pattern match"⟩ ∧
    classifyThread cfg (some i) fromStr subject body =
      Except.ok ⟨TriageAction.label, some l, 1, "Historical pattern match"⟩ := by
  have htw : (scoreAccum sp (i.keywordProfiles.getD []) (_extractSenderEmail fromStr)
      (ruleText subject (snippetOf body))).2 = w := by
    rw [scoreAccum_snd, hmap, sumVals_cons, sumVals_nil]
    ring
  have hpb : pickBest (scoreAccum sp (i.keywordProfiles.getD []) (_extractSenderEmail fromStr)
      (ruleText subject (snippetOf body))).1 = (some l, w) := by
    rw [hmap, pickBest]
    simp only [List.foldl_cons, List.foldl_nil]
    rw [if_pos (show qgt w (0:ℚ) = true from (qgt_iff _ _).mpr hw)]
  have hcwi : _classifyWithIntelligence i (_extractSenderEmail fromStr) subject
      (snippetOf body) = Except.ok ⟨TriageAction.label, some l, 1, "Historical pattern match"⟩ := by
    rw [_classifyWithIntelligence]
    simp only [hsp]
    simp only [hpb]
    rw [htw, if_pos (show qgt w (0:ℚ) = true from (qgt_iff _ _).mpr hw)]
    rw [show qmin (qdiv w w) 1 = 1 from by
      rw [qmin_eq, qdiv_eq, div_self (ne_of_gt hw)]
      exact min_self 1]
  refine ⟨hcwi, ?_⟩
  rw [classifyThread, if_neg (Bool.eq_false_iff.mp hnv), if_neg (Bool.eq_false_iff.mp hnp)]
  simp only [hcwi]
  rw [if_pos (show qge (1:ℚ) cfg.mediumConfidence = true from (qge_iff _ _).mpr hmed)]

/-- Witness for C10: a high-importance sender profile and no keyword
matches — the single 0.4 contribution yields confidence exactly 1, which
passes the default 0.5 gate. -/
theorem C10_unanimous_confidence_witness :
    (scoreAccum [("ceo@corp.com", ⟨20, 0, "high"⟩)]
        ((⟨some [("ceo@corp.com", ⟨20, 0, "high"⟩)], some []⟩ : Intelligence).keywordProfiles.getD [])
        (_extractSenderEmail "ceo@corp.com") (ruleText "x" (snippetOf ""))).1 =
      [("Important", mkRat 4 10)] ∧
    classifyThread defaultConfig (some ⟨some [("ceo@corp.com", ⟨20, 0, "high"⟩)], some []⟩)
        "ceo@corp.com" "x" "" =
      Except.ok ⟨TriageAction.label, some "Important", 1, "Historical pattern match"⟩ :=
  ⟨by decide,
   (C10_unanimous_confidence defaultConfig ⟨some [("ceo@corp.com", ⟨20, 0, "high"⟩)], some []⟩
     [("ceo@corp.com", ⟨20, 0, "high"⟩)] "ceo@corp.com" "x" "" "Important" (mkRat 4 10)
     rfl (by decide) (by decide) (by decide) (by decide)
     (by rw [show (defaultConfig.mediumConfidence) = mkRat 5 10 from rfl]
         rw [show (mkRat 5 10 : ℚ) = 1/2 from by rw [Rat.mkRat_eq_div]; norm_num]
         norm_num)).2⟩

/-- C4: the rule-based fallback is a decision tree over the lowercased
subject+snippet text, evaluated in order with first match winning: for
academic senders (`@alaska.edu`/`@ua.edu`) meeting/schedule gives
Meetings 0.8, else student/grade gives Students 0.8, else
department/faculty gives Department 0.7; unsubscribe/newsletter gives
Newsletters 0.9 regardless of sender domain (once no earlier academic rule
matched); otherwise keep with confidence 0.3, reason "No specific rule
matched" — and classifying with empty statistics maps and no rule keywords
returns that keep/0.3 decision. -/
theorem C4_rule_fallback_tree :
    (∀ sender subject snippet : String,
      (strEndsWith sender "@alaska.edu" || strEndsWith sender "@ua.edu") = true →
      (strIncludes (ruleText subject snippet) "meeting"
        || strIncludes (ruleText subject snippet) "schedule") = true →
      _ruleBasedClassification sender subject snippet =
        ⟨TriageAction.label, some "Meetings", mkRat 8 10, "Meeting related"⟩) ∧
    (∀ sender subject snippet : String,
      (strEndsWith sender "@alaska.edu" || strEndsWith sender "@ua.edu") = true →
      (strIncludes (ruleText subject snippet) "meeting"
        || strIncludes (ruleText subject snippet) "schedule") = false →
      (strIncludes (ruleText subject snippet) "student"
        || strIncludes (ruleText subject snippet) "grade") = true →
      _ruleBasedClassification sender subject snippet =
        ⟨TriageAction.label, some "Students", mkRat 8 10, "Student related"⟩) ∧
    (∀ sender subject snippet : String,
      (strEndsWith sender "@alaska.edu" || strEndsWith sender "@ua.edu") = true →
      (strIncludes (ruleText subject snippet) "meeting"
        || strIncludes (ruleText subject snippet) "schedule") = false →
      (strIncludes (ruleText subject snippet) "student"
        || strIncludes (ruleText subject snippet) "grade") = false →
      (strIncludes (ruleText subject snippet) "department"
        || strIncludes (ruleText subject snippet) "faculty") = true →
      _ruleBasedClassification sender subject snippet =
        ⟨TriageAction.label, some "Department", mkRat 7 10, "Department business"⟩) ∧
    (∀ sender subject snippet : String,
      (strIncludes (ruleText subject snippet) "unsubscribe"
        || strIncludes (ruleText subject snippet) "newsletter") = true →
      ((strEndsWith sender "@alaska.edu" || strEndsWith sender "@ua.edu") = false ∨
        ((strIncludes (ruleText subject snippet) "meeting"
          || strIncludes (ruleText subject snippet) "schedule") = false ∧
         (strIncludes (ruleText subject snippet) "student"
          || strIncludes (ruleText subject snippet) "grade") = false ∧
         (strIncludes (ruleText subject snippet) "department"
          || strIncludes (ruleText subject snippet) "faculty") = false)) →
      _ruleBasedClassification sender subject snippet =
        ⟨TriageAction.label, some "Newsletters", mkRat 9 10, "Newsletter detected"⟩) ∧
    (∀ sender subject snippet : String,
      (strIncludes (ruleText subject snippet) "unsubscribe"
        || strIncludes (ruleText subject snippet) "newsletter") = false →
      ((strEndsWith sender "@alaska.edu" || strEndsWith sender "@ua.edu") = false ∨
        ((strIncludes (ruleText subject snippet) "meeting"
          || strIncludes (ruleText subject snippet) "schedule") = false ∧
         (strIncludes (ruleText subject snippet) "student"
          || strIncludes (ruleText subject snippet) "grade") = false ∧
         (strIncludes (ruleText subject snippet) "department"
          || strIncludes (ruleText subject snippet) "faculty") = false)) →
      _ruleBasedClassification sender subject snippet =
        ⟨TriageAction.keep, none, mkRat 3 10, "No specific rule matched"⟩) ∧
    (∀ (cfg : TriageConfig) (fromStr subject body : String),
      _isVIP cfg (_extractSenderEmail fromStr) = false →
      _isProtected cfg (_extractSenderEmail fromStr) = false →
      0 < cfg.mediumConfidence →
      (strIncludes (ruleText subject (snippetOf body)) "meeting"
        || strIncludes (ruleText subject (snippetOf body)) "schedule") = false →
      (strIncludes (ruleText subject (snippetOf body)) "student"
        || strIncludes (ruleText subject (snippetOf body)) "grade") = false →
      (strIncludes (ruleText subject (snippetOf body)) "department"
        || strIncludes (ruleText subject (snippetOf body)) "faculty") = false →
      (strIncludes (ruleText subject (snippetOf body)) "unsubscribe"
        || strIncludes (ruleText subject (snippetOf body)) "newsletter") = false →
      classifyThread cfg (some ⟨some [], some []⟩) fromStr subject body =
        Except.ok ⟨TriageAction.keep, none, mkRat 3 10, "No specific rule matched"⟩) := by
  refine ⟨?_, ?_, ?_, ?_, ?_, ?_⟩
  · intro sender subject snippet h1 h2
    rw [_ruleBasedClassification, if_pos h1, if_pos h2]
  · intro sender subject snippet h1 h2 h3
    rw [_ruleBasedClassification, if_pos h1, if_neg (Bool.eq_false_iff.mp h2), if_pos h3]
  · intro sender subject snippet h1 h2 h3 h4
    rw [_ruleBasedClassification, if_pos h1, if_neg (Bool.eq_false_iff.mp h2),
      if_neg (Bool.eq_false_iff.mp h3), if_pos h4]
  · intro sender subject snippet hun hgate
    rcases hgate with hedu0 | ⟨hms, hsg, hdf⟩
    · rw [_ruleBasedClassification, if_neg (Bool.eq_false_iff.mp hedu0), if_pos hun]
    · by_cases hedu : (strEndsWith sender "@alaska.edu" || strEndsWith sender "@ua.edu") = true
      · rw [_ruleBasedClassification, if_pos hedu, if_neg (Bool.eq_false_iff.mp hms),
          if_neg (Bool.eq_false_iff.mp hsg), if_neg (Bool.eq_false_iff.mp hdf), if_pos hun]
      · rw [_ruleBasedClassification, if_neg hedu, if_pos hun]
  · intro sender subject snippet hun hgate
    rcases hgate with hedu0 | ⟨hms, hsg, hdf⟩
    · rw [_ruleBasedClassification, if_neg (Bool.eq_false_iff.mp hedu0),
        if_neg (Bool.eq_false_iff.mp hun)]
    · exact ruleBased_default sender subject snippet hms hsg hdf hun
  · intro cfg fromStr subject body hnv hnp hmedpos hms hsg hdf hun
    have hcwi : _classifyWithIntelligence ⟨some [], some []⟩ (_extractSenderEmail fromStr)
        subject (snippetOf body) = Except.ok ⟨TriageAction.keep, none, 0, "No pattern match"⟩ :=
      rfl
    rw [classifyThread, if_neg (Bool.eq_false_iff.mp hnv), if_neg (Bool.eq_false_iff.mp hnp)]
    simp only [hcwi]
    rw [if_neg (show ¬qge (0:ℚ) cfg.mediumConfidence = true from
      fun h => absurd ((qge_iff _ _).mp h) (not_le.mpr hmedpos))]
    rw [ruleBased_default (_extractSenderEmail fromStr) subject (snippetOf body) hms hsg hdf hun]

/-- Witness for C4 applying the first branch of the tree at a concrete
academic-sender meeting email. -/
theorem C4_rule_fallback_tree_witness :
    (strEndsWith "x@ua.edu" "@alaska.edu" || strEndsWith "x@ua.edu" "@ua.edu") = true ∧
    _ruleBasedClassification "x@ua.edu" "team meeting" "" =
      ⟨TriageAction.label, some "Meetings", mkRat 8 10, "Meeting related"⟩ :=
  ⟨by decide, C4_rule_fallback_tree.1 "x@ua.edu" "team meeting" "" (by decide) (by decide)⟩
